import Mathlib

/-!
Shallow embedding of the StyleGANv2-ADA training orchestration core of the
miemieGAN repository, covering:

* `StyleGANv2ADAModel.__init__` (phase-schedule construction, the stored
  style-mixing probability, the align-grad debug flag);
* `StyleGANv2ADAModel.train_iter` (phase gating, loss-name accumulation,
  running-state counters, the EMA update, the adaptive-augmentation
  controller, and the align-grad npz loading path);
* `StyleGANv2ADAModel.accumulate_gradients` (which loss names each phase
  produces, and which npz keys the align-grad path reads);
* `Trainer.before_train` (lazy-regularization pre-scaling of optimizer
  hyper-parameters).

Tensors are irrelevant to the scheduling-level claims; parameter vectors are
lists of rationals, and a real-power expression `b ** e` is represented
symbolically by the pair `PowE b e` (the code only ever forms such powers
once from literal bases and rational exponents, so the exponent pair
determines the value).
-/

namespace Mmgan

/-- One entry of `self.phases` (styleganv2ada_model.py lines 83-89):
a phase name together with its execution interval. -/
structure Phase where
  name : String
  interval : Nat
deriving DecidableEq, Repr

/-- One role of the loop `for name, reg_interval in [('G', ...), ('D', ...)]`
in `StyleGANv2ADAModel.__init__` (lines 84-89): a `None` interval appends a
single `<role>both` phase with interval 1, otherwise a `<role>main` phase
with interval 1 followed by a `<role>reg` phase with the given interval. -/
def rolePhases (name : String) (reg_interval : Option Nat) : List Phase :=
  match reg_interval with
  | none => [⟨name ++ "both", 1⟩]
  | some k => [⟨name ++ "main", 1⟩, ⟨name ++ "reg", k⟩]

/-- `self.phases` as built by the constructor: the role loop runs over
`[('G', G_reg_interval), ('D', D_reg_interval)]` in that order. -/
def buildPhases (G_reg_interval D_reg_interval : Option Nat) : List Phase :=
  (([("G", G_reg_interval), ("D", D_reg_interval)] : List (String × Option Nat)).map
    (fun p => rolePhases p.1 p.2)).flatten

/-- The configuration state produced by `StyleGANv2ADAModel.__init__`
(the fields the claims are about). -/
structure ModelCfg where
  phases : List Phase
  style_mixing_prob : ℚ
  align_grad : Bool
  augment_p : ℚ
  ada_kimg : ℚ
  ada_interval : Nat
  adjust_p : Bool
  cur_nimg : Nat
  batch_idx : Nat
deriving Repr

/-- `StyleGANv2ADAModel.__init__`.  Line 97 stores the `style_mixing_prob`
argument and line 98 immediately overwrites it with `-1.0`, so the stored
value is `-1` whatever the argument was.  Line 115 sets `align_grad = False`
and line 116 immediately overwrites it with `True`.  `cur_nimg` and
`batch_idx` start at 0 (lines 92-93). -/
def initModel (G_reg_interval D_reg_interval : Option Nat)
    (style_mixing_prob : ℚ) (augment_p : ℚ) (ada_kimg : ℚ)
    (ada_interval : Nat) (adjust_p : Bool) : ModelCfg :=
  { phases := buildPhases G_reg_interval D_reg_interval
  , style_mixing_prob := -1
  , align_grad := true
  , augment_p := augment_p
  , ada_kimg := ada_kimg
  , ada_interval := ada_interval
  , adjust_p := adjust_p
  , cur_nimg := 0
  , batch_idx := 0 }

end Mmgan

namespace Mmgan

/-- What `train_iter` does for one phase that passed the interval test
(lines 386-430): which optimizer is zeroed and stepped (dispatch on whether
the phase name contains the character G, else D), the gain passed to
`accumulate_gradients` (the phase interval, line 402), and the sync flag of
the single gradient-accumulation round (line 401; with `num_gpus = 1` and
`batch_gpu = batch_size` the round count is one and the flag is true). -/
structure PhaseStep where
  phase : Phase
  optimizer : String
  gain : Nat
  sync : Bool
deriving DecidableEq, Repr

/-- The record built for an executed phase. -/
def execPhase (ph : Phase) : PhaseStep :=
  { phase := ph
  , optimizer :=
      if ph.name.contains 'G' then "optimizer_G"
      else if ph.name.contains 'D' then "optimizer_D"
      else ""
  , gain := ph.interval
  , sync := true }

/-- The phase loop of `train_iter` (lines 381-430): a phase is skipped
(`continue`, line 383) when `batch_idx % interval != 0`, otherwise it is
executed; the executed phases keep the schedule order. -/
def runPhases (batch_idx : Nat) (phases : List Phase) : List PhaseStep :=
  phases.filterMap (fun ph =>
    if batch_idx % ph.interval == 0 then some (execPhase ph) else none)

theorem runPhases_eq_filter (b : Nat) (phases : List Phase) :
    runPhases b phases =
      (phases.filter (fun ph => b % ph.interval == 0)).map execPhase := by
  induction phases with
  | nil => rfl
  | cons ph rest ih =>
      unfold runPhases at ih ⊢
      rw [List.filterMap_cons, List.filter_cons]
      cases hbe : (b % ph.interval == 0) with
      | true => simpa [hbe] using ih
      | false => simpa [hbe] using ih

theorem runPhases_map_phase (b : Nat) (phases : List Phase) :
    (runPhases b phases).map PhaseStep.phase =
      phases.filter (fun ph => b % ph.interval == 0) := by
  rw [runPhases_eq_filter, List.map_map]
  have h : (PhaseStep.phase ∘ execPhase) = id := by
    funext ph
    rfl
  rw [h, List.map_id]

end Mmgan

namespace Mmgan

/-- C2: Phase-schedule construction in the model constructor: for each role in
the order (G, D), a `None` regularization interval appends exactly one phase
named `<role>both` with interval 1, while interval `k` appends exactly two
phases, `<role>main` with interval 1 followed by `<role>reg` with interval
`k`.  Stated for all four configurations of the two roles, through the
constructor. -/
theorem c2_phase_schedule (k1 k2 : Nat) (smp ap kim : ℚ) (ai : Nat) (adj : Bool) :
    (initModel (some k1) (some k2) smp ap kim ai adj).phases =
      [⟨"Gmain", 1⟩, ⟨"Greg", k1⟩, ⟨"Dmain", 1⟩, ⟨"Dreg", k2⟩]
    ∧ (initModel none (some k2) smp ap kim ai adj).phases =
      [⟨"Gboth", 1⟩, ⟨"Dmain", 1⟩, ⟨"Dreg", k2⟩]
    ∧ (initModel (some k1) none smp ap kim ai adj).phases =
      [⟨"Gmain", 1⟩, ⟨"Greg", k1⟩, ⟨"Dboth", 1⟩]
    ∧ (initModel none none smp ap kim ai adj).phases =
      [⟨"Gboth", 1⟩, ⟨"Dboth", 1⟩] := by
  refine ⟨?_, ?_, ?_, ?_⟩ <;> rfl

/-- C1: During one `train_iter` call with current batch index `b`, a phase of
the configured schedule is executed iff `b % interval == 0`; skipped phases
contribute no execution record at all (hence no gradient accumulation and no
optimizer step), and the executed phases appear in schedule order (the
executed-phase list is a sublist of the schedule); every executed phase runs
with gain equal to its interval. -/
theorem c1_phase_gating (b : Nat) (phases : List Phase) :
    ((runPhases b phases).map PhaseStep.phase =
        phases.filter (fun ph => b % ph.interval == 0))
    ∧ List.Sublist ((runPhases b phases).map PhaseStep.phase) phases
    ∧ (∀ ph, ph ∈ phases →
        (b % ph.interval = 0 ↔ ph ∈ (runPhases b phases).map PhaseStep.phase))
    ∧ (∀ st, st ∈ runPhases b phases →
        b % st.phase.interval = 0 ∧ st.gain = st.phase.interval) := by
  refine ⟨runPhases_map_phase b phases, ?_, ?_, ?_⟩
  · rw [runPhases_map_phase]
    exact List.filter_sublist phases
  · intro ph hph
    rw [runPhases_map_phase]
    constructor
    · intro h0
      exact List.mem_filter.2 ⟨hph, by simp [h0]⟩
    · intro hmem
      have := (List.mem_filter.1 hmem).2
      simpa using this
  · intro st hst
    rw [runPhases_eq_filter] at hst
    rcases List.mem_map.1 hst with ⟨ph, hph, hex⟩
    have hcond := (List.mem_filter.1 hph).2
    subst hex
    refine ⟨by simpa using hcond, rfl⟩

/-- Witness for C1 at the default 4-phase schedule and batch index 5: the
interval-4 regularization phase is present in the schedule and is skipped
since 5 % 4 is not 0. -/
theorem c1_phase_gating_witness :
    ((⟨"Greg", 4⟩ : Phase) ∈ buildPhases (some 4) (some 16))
    ∧ (5 % 4 = 0 ↔ (⟨"Greg", 4⟩ : Phase) ∈
        (runPhases 5 (buildPhases (some 4) (some 16))).map PhaseStep.phase) :=
  ⟨by decide, (c1_phase_gating 5 (buildPhases (some 4) (some 16))).2.2.1 ⟨"Greg", 4⟩ (by decide)⟩

end Mmgan

namespace Mmgan

/-- The style-mixing step of `run_G` (lines 143-147), reduced to the cutoff
index it selects.  `randCutoff` stands for the value drawn by
`random_(1, ws.shape[1])`, and `randUniform` for the uniform draw compared
against the probability.  When `style_mixing_prob > 0`, layers from the
cutoff on are replaced by codes from an independent noise sample; a cutoff
equal to `num_ws` replaces the empty suffix, and when the guard
`style_mixing_prob > 0` fails the statement is never reached, which we encode
with the same empty-suffix cutoff. -/
def runGStyleCutoff (style_mixing_prob : ℚ) (num_ws : Nat)
    (randCutoff : Nat) (randUniform : ℚ) : Nat :=
  if style_mixing_prob > 0 then
    (if randUniform < style_mixing_prob then randCutoff else num_ws)
  else num_ws

/-- How many per-layer style codes `run_G` replaces with codes from the
independent noise sample. -/
def runGMixedLayers (style_mixing_prob : ℚ) (num_ws : Nat)
    (randCutoff : Nat) (randUniform : ℚ) : Nat :=
  num_ws - runGStyleCutoff style_mixing_prob num_ws randCutoff randUniform

/-- C3 (code evaluated at the failing input): whatever `style_mixing_prob`
argument the constructor receives (in particular the default 0.9 and any
value greater than 0), the stored probability is `-1`, and consequently
`run_G` never replaces any style-code suffix: the mixing branch requires the
stored probability to be positive, so the number of mixed layers is 0 for
every random draw.  This contradicts the claim that a positive configured
probability makes style mixing occur for some executions. -/
theorem c3_style_mixing_dead (cfg_prob ap kim : ℚ) (ai : Nat) (adj : Bool)
    (g d : Option Nat) (num_ws randCutoff : Nat) (randUniform : ℚ) :
    (initModel g d cfg_prob ap kim ai adj).style_mixing_prob = -1
    ∧ runGStyleCutoff (initModel g d cfg_prob ap kim ai adj).style_mixing_prob
        num_ws randCutoff randUniform = num_ws
    ∧ runGMixedLayers (initModel g d cfg_prob ap kim ai adj).style_mixing_prob
        num_ws randCutoff randUniform = 0 := by
  refine ⟨rfl, ?_, ?_⟩
  · show runGStyleCutoff (-1) num_ws randCutoff randUniform = num_ws
    unfold runGStyleCutoff
    norm_num
  · show runGMixedLayers (-1) num_ws randCutoff randUniform = 0
    unfold runGMixedLayers runGStyleCutoff
    norm_num

end Mmgan

namespace Mmgan

/-- Which loss names one `accumulate_gradients` call (lines 167-313) inserts
into its returned dictionary, in insertion order.  The flags mirror lines
169-172: `do_Gmain` for Gmain/Gboth, `do_Dmain` for Dmain/Dboth, `do_Gpl`
for Greg/Gboth gated on `pl_weight != 0`, `do_Dr1` for Dreg/Dboth gated on
`r1_gamma != 0`.  The names inserted are `loss_Gmain` (line 195),
`loss_Gpl` (line 240), `loss_Dgen` (line 263), `loss_Dreal` (line 290) and
`loss_Dr1` (line 306). -/
def lossNames (phase : String) (pl_weight r1_gamma : ℚ) : List String :=
  let do_Gmain := phase == "Gmain" || phase == "Gboth"
  let do_Dmain := phase == "Dmain" || phase == "Dboth"
  let do_Gpl := (phase == "Greg" || phase == "Gboth") && decide (pl_weight ≠ 0)
  let do_Dr1 := (phase == "Dreg" || phase == "Dboth") && decide (r1_gamma ≠ 0)
  (if do_Gmain then ["loss_Gmain"] else [])
    ++ (if do_Gpl then ["loss_Gpl"] else [])
    ++ (if do_Dmain then ["loss_Dgen"] else [])
    ++ (if do_Dmain then ["loss_Dreal"] else [])
    ++ (if do_Dr1 then ["loss_Dr1"] else [])

/-- The running-state counters mutated by `train_iter`. -/
structure IterState where
  cur_nimg : Nat
  batch_idx : Nat
deriving DecidableEq, Repr

/-- The observable outcome of one `train_iter` call: the updated counters,
the keys of the returned loss dictionary (accumulated across executed
phases, line 407-411), and the executed-phase trace. -/
structure IterResult where
  state : IterState
  lossKeys : List String
  steps : List PhaseStep
deriving Repr

/-- One `train_iter` call (lines 315-477) at the scheduling level, for a
single device (`num_gpus = 1`, line 352, so each phase runs one
gradient-accumulation round over the whole batch): executes the phases
passing the interval test at the current `batch_idx`, gathers the loss names
each executed phase produces, then advances `cur_nimg` by the batch size and
`batch_idx` by one (lines 451-452). -/
def trainIterModel (phases : List Phase) (pl_weight r1_gamma : ℚ)
    (s : IterState) (batch_size : Nat) : IterResult :=
  let steps := runPhases s.batch_idx phases
  { state := { cur_nimg := s.cur_nimg + batch_size, batch_idx := s.batch_idx + 1 }
  , lossKeys := steps.flatMap (fun st => lossNames st.phase.name pl_weight r1_gamma)
  , steps := steps }

/-- C8: After one `train_iter` call with a batch of `N` real images on a
single device, under the end-to-end schedule `G_reg_interval = 4`,
`D_reg_interval = 16` (4 phases), `cur_nimg` has increased by exactly `N`,
`batch_idx` has increased by exactly 1, and the returned loss mapping
contains at least the keys `loss_Gmain` and `loss_Dgen` (the interval-1
phases Gmain and Dmain always execute since `b % 1 = 0`). -/
theorem c8_end_to_end (s : IterState) (N : Nat) (pl_weight r1_gamma : ℚ) :
    (trainIterModel (buildPhases (some 4) (some 16)) pl_weight r1_gamma s N).state.cur_nimg
        = s.cur_nimg + N
    ∧ (trainIterModel (buildPhases (some 4) (some 16)) pl_weight r1_gamma s N).state.batch_idx
        = s.batch_idx + 1
    ∧ "loss_Gmain" ∈
        (trainIterModel (buildPhases (some 4) (some 16)) pl_weight r1_gamma s N).lossKeys
    ∧ "loss_Dgen" ∈
        (trainIterModel (buildPhases (some 4) (some 16)) pl_weight r1_gamma s N).lossKeys := by
  have hG : (⟨"Gmain", 1⟩ : Phase) ∈
      (buildPhases (some 4) (some 16)).filter
        (fun ph => s.batch_idx % ph.interval == 0) := by
    apply List.mem_filter.2
    refine ⟨by decide, ?_⟩
    simp [Nat.mod_one]
  have hD : (⟨"Dmain", 1⟩ : Phase) ∈
      (buildPhases (some 4) (some 16)).filter
        (fun ph => s.batch_idx % ph.interval == 0) := by
    apply List.mem_filter.2
    refine ⟨by decide, ?_⟩
    simp [Nat.mod_one]
  refine ⟨rfl, rfl, ?_, ?_⟩
  · show "loss_Gmain" ∈ (runPhases s.batch_idx (buildPhases (some 4) (some 16))).flatMap
      (fun st => lossNames st.phase.name pl_weight r1_gamma)
    rw [runPhases_eq_filter]
    apply List.mem_flatMap.2
    exact ⟨execPhase ⟨"Gmain", 1⟩, List.mem_map_of_mem _ hG, by
      simp [execPhase, lossNames]⟩
  · show "loss_Dgen" ∈ (runPhases s.batch_idx (buildPhases (some 4) (some 16))).flatMap
      (fun st => lossNames st.phase.name pl_weight r1_gamma)
    rw [runPhases_eq_filter]
    apply List.mem_flatMap.2
    exact ⟨execPhase ⟨"Dmain", 1⟩, List.mem_map_of_mem _ hD, by
      simp [execPhase, lossNames]⟩

end Mmgan

namespace Mmgan

/-- A real power expression b ** e, kept symbolic: the code only forms such
powers from a known base and a rational exponent, so the pair determines the
value and keeps every definition computable. -/
structure PowE where
  base : ℚ
  exponent : ℚ
deriving DecidableEq, Repr

/-- The literal 1e-8 of line 441. -/
def emaEps : ℚ := 1 / 100000000

/-- Lines 435-440 of `train_iter`: `ema_nimg = ema_kimg * 1000`, then, when
`ema_rampup` is configured, `ema_nimg = min(ema_nimg, cur_nimg * ema_rampup)`
(`cur_nimg` is read before this iteration's increment). -/
def emaNimgOf (ema_kimg : ℚ) (ema_rampup : Option ℚ) (cur_nimg : ℚ) : ℚ :=
  match ema_rampup with
  | none => ema_kimg * 1000
  | some r => min (ema_kimg * 1000) (cur_nimg * r)

/-- Line 441: `ema_beta = 0.5 ** (batch_size / max(ema_nimg, 1e-8))`. -/
def emaBetaOf (batch_size ema_nimg : ℚ) : PowE :=
  ⟨1/2, batch_size / max ema_nimg emaEps⟩

/-- The library lerp used on lines 443 and 447:
`torch.lerp(start, end, weight) = start + weight * (end - start)`. -/
def lerpTorch (start stop weight : ℚ) : ℚ := start + weight * (stop - start)

/-- Lines 442-443 and 446-447: for every parameter pair, in zip order,
`p_ema.copy_(p.lerp(p_ema, ema_beta))`. -/
def emaUpdateParams (ema_beta : ℚ) (live ema : List ℚ) : List ℚ :=
  List.zipWith (fun p p_ema => lerpTorch p p_ema ema_beta) live ema

/-- Lines 444-445 and 448-449: every EMA buffer is overwritten with the
corresponding live buffer, `b_ema.copy_(b)`. -/
def emaUpdateBuffers (live ema : List ℚ) : List ℚ :=
  List.zipWith (fun b _b_ema => b) live ema

theorem emaUpdateParams_spec (ema_beta : ℚ) (live ema : List ℚ) :
    emaUpdateParams ema_beta live ema =
      List.zipWith (fun p p_ema => ema_beta * p_ema + (1 - ema_beta) * p) live ema := by
  induction live generalizing ema with
  | nil => rfl
  | cons p lp ih =>
      cases ema with
      | nil => rfl
      | cons pe le =>
          simp only [emaUpdateParams, List.zipWith_cons_cons] at ih ⊢
          refine congrArg₂ List.cons ?_ (ih le)
          unfold lerpTorch
          ring

theorem emaUpdateBuffers_spec (live ema : List ℚ) (hlen : live.length = ema.length) :
    emaUpdateBuffers live ema = live := by
  induction live generalizing ema with
  | nil => rfl
  | cons b lb ih =>
      cases ema with
      | nil => simp at hlen
      | cons be le =>
          simp only [List.length_cons, Nat.succ.injEq] at hlen
          simp only [emaUpdateBuffers, List.zipWith_cons_cons] at ih ⊢
          exact congrArg₂ List.cons rfl (ih le hlen)

/-- C5: the EMA update at the end of `train_iter`: `ema_nimg = ema_kimg*1000`,
replaced by `min(ema_nimg, cur_nimg * ema_rampup)` when rampup is configured;
`beta = 0.5 ** (batch_size / max(ema_nimg, 1e-8))` (stated through the
symbolic power `PowE`); every parameter pair `(live, ema)`, taken in
identical order, is blended to `beta*ema_old + (1-beta)*live`; every EMA
buffer is overwritten verbatim with the corresponding live buffer. -/
theorem c5_ema_tracker (kimg r cur bs ema_beta : ℚ) (live ema : List ℚ)
    (hlen : live.length = ema.length) :
    emaNimgOf kimg none cur = kimg * 1000
    ∧ emaNimgOf kimg (some r) cur = min (kimg * 1000) (cur * r)
    ∧ emaBetaOf bs (emaNimgOf kimg (some r) cur) =
        ⟨1/2, bs / max (min (kimg * 1000) (cur * r)) emaEps⟩
    ∧ emaUpdateParams ema_beta live ema =
        List.zipWith (fun p p_ema => ema_beta * p_ema + (1 - ema_beta) * p) live ema
    ∧ emaUpdateBuffers live ema = live :=
  ⟨rfl, rfl, rfl, emaUpdateParams_spec ema_beta live ema,
    emaUpdateBuffers_spec live ema hlen⟩

/-- Witness for C5 at a concrete configuration and concrete parameter
lists. -/
theorem c5_ema_tracker_witness :
    emaNimgOf 10 none 64 = 10 * 1000
    ∧ emaNimgOf 10 (some (1/20)) 64 = min (10 * 1000) (64 * (1/20))
    ∧ emaBetaOf 8 (emaNimgOf 10 (some (1/20)) 64) =
        ⟨1/2, 8 / max (min (10 * 1000) (64 * (1/20))) emaEps⟩
    ∧ emaUpdateParams (1/2) [1, 2] [3, 4] =
        List.zipWith (fun p p_ema => (1/2) * p_ema + (1 - (1/2)) * p) [1, 2] [3, 4]
    ∧ emaUpdateBuffers [1, 2] [3, 4] = [1, 2] :=
  c5_ema_tracker 10 (1/20) 64 8 (1/2) [1, 2] [3, 4] rfl

/-- C9: the EMA parameter update is the identity at the blend-factor
extremes: with `beta = 1` every EMA parameter is unchanged, and with
`beta = 0` every EMA parameter becomes the live value exactly (parameter
lists of equal length, as guaranteed by the structurally identical
networks). -/
theorem c9_ema_extremes (live ema : List ℚ) (hlen : live.length = ema.length) :
    emaUpdateParams 1 live ema = ema ∧ emaUpdateParams 0 live ema = live := by
  constructor
  · induction live generalizing ema with
    | nil => cases ema with
        | nil => rfl
        | cons pe le => simp at hlen
    | cons p lp ih =>
        cases ema with
        | nil => simp at hlen
        | cons pe le =>
            simp only [List.length_cons, Nat.succ.injEq] at hlen
            simp only [emaUpdateParams, List.zipWith_cons_cons] at ih ⊢
            refine congrArg₂ List.cons ?_ (ih le hlen)
            unfold lerpTorch
            ring
  · induction live generalizing ema with
    | nil => rfl
    | cons p lp ih =>
        cases ema with
        | nil => simp at hlen
        | cons pe le =>
            simp only [List.length_cons, Nat.succ.injEq] at hlen
            simp only [emaUpdateParams, List.zipWith_cons_cons] at ih ⊢
            refine congrArg₂ List.cons ?_ (ih le hlen)
            unfold lerpTorch
            ring

/-- Witness for C9 on concrete equal-length parameter lists. -/
theorem c9_ema_extremes_witness :
    emaUpdateParams 1 [5, 7] [2, 9] = [2, 9] ∧ emaUpdateParams 0 [5, 7] [2, 9] = [5, 7] :=
  c9_ema_extremes [5, 7] [2, 9] rfl

end Mmgan

namespace Mmgan

/-- `np.sign` on a rational. -/
def npSign (x : ℚ) : ℚ := if 0 < x then 1 else if x < 0 then -1 else 0

/-- `np.mean` of a flat array, as used on line 465 on the concatenation of
the sign buffer. -/
def listMean (l : List ℚ) : ℚ := l.sum / (l.length : ℚ)

/-- The ADA running state touched by lines 462-475: the augmentation
strength `augment_pipe.p` and the sign buffer `Loss_signs_real` (a list of
per-batch sign arrays). -/
structure AdaState where
  augment_p : ℚ
  signs : List (List ℚ)
deriving Repr

/-- Lines 466-473: `diff = mean - ada_target`, `adjust = np.sign(diff)`,
then `adjust = adjust * (batch_size * ada_interval) / (ada_kimg * 1000)`. -/
def adaAdjust (batch_size ada_interval : Nat) (ada_kimg ada_target m : ℚ) : ℚ :=
  npSign (m - ada_target) * ((batch_size : ℚ) * (ada_interval : ℚ)) / (ada_kimg * 1000)

/-- Line 474: `p.copy_((p + adjust).max(constant(0, ...)))` for one firing
with buffered-sign mean `m`. -/
def adaFire (batch_size ada_interval : Nat) (ada_kimg ada_target : ℚ)
    (p m : ℚ) : ℚ :=
  max (p + adaAdjust batch_size ada_interval ada_kimg ada_target m) 0

/-- Lines 462-475 of `train_iter`: the ADA heuristic fires only when
`adjust_p` is set, an augmentation pipe exists, and the (already
incremented) `batch_idx` is a multiple of `ada_interval`; it then updates
`augment_p` from the mean sign of the concatenated buffer and clears the
buffer. -/
def adaSection (adjust_p has_augment_pipe : Bool) (ada_interval : Nat)
    (ada_target ada_kimg : ℚ) (batch_size batch_idx : Nat)
    (st : AdaState) : AdaState :=
  if adjust_p && has_augment_pipe && (batch_idx % ada_interval == 0) then
    { augment_p := adaFire batch_size ada_interval ada_kimg ada_target
        st.augment_p (listMean st.signs.flatten)
    , signs := [] }
  else st

/-- A sequence of controller firings, one per sign-buffer content. -/
def adaRun (batch_size ada_interval : Nat) (ada_kimg ada_target : ℚ)
    (p : ℚ) (bufs : List (List ℚ)) : ℚ :=
  bufs.foldl
    (fun q buf => adaFire batch_size ada_interval ada_kimg ada_target q (listMean buf)) p

theorem adaFire_nonneg (bs ai : Nat) (kimg t p m : ℚ) :
    0 ≤ adaFire bs ai kimg t p m :=
  le_max_right _ 0

/-- C6: the augmentation strength never becomes negative: starting from any
`augment_p ≥ 0`, for every sequence of sign-buffer contents (each firing
taking the mean of its buffer), the updated value `max(0, p + adjust)`
remains ≥ 0 after each firing, for arbitrarily many firings. -/
theorem c6_augment_p_nonneg (bs ai : Nat) (kimg t p : ℚ)
    (bufs : List (List ℚ)) (hp : 0 ≤ p) :
    0 ≤ adaRun bs ai kimg t p bufs := by
  induction bufs generalizing p with
  | nil => exact hp
  | cons buf rest ih =>
      exact ih (adaFire bs ai kimg t p (listMean buf)) (adaFire_nonneg bs ai kimg t p _)

/-- Witness for C6: a concrete run of two firings from `augment_p = 0`. -/
theorem c6_augment_p_nonneg_witness :
    0 ≤ adaRun 8 4 500 (3/5) 0 [[1], [-1, 1]] :=
  c6_augment_p_nonneg 8 4 500 (3/5) 0 [[1], [-1, 1]] (le_refl 0)

/-- C7 counterexample: with `ada_target = 3/5`, a sign buffer whose mean is
`-1 < 3/5`, and current `augment_p = 0`, a firing of the controller leaves
`augment_p` at 0 (the `max(·, 0)` floor), so it does not strictly decrease,
contrary to the claim that the mean being below the target makes `augment_p`
strictly decrease. -/
theorem c7_counterexample :
    listMean ([[-1]] : List (List ℚ)).flatten < 3/5
    ∧ (adaSection true true 4 (3/5) 500 8 4 ⟨0, [[-1]]⟩).augment_p = 0
    ∧ ¬ ((adaSection true true 4 (3/5) 500 8 4 ⟨0, [[-1]]⟩).augment_p <
          (⟨0, [[-1]]⟩ : AdaState).augment_p) := by
  refine ⟨by norm_num [listMean], ?_, ?_⟩
  · show (adaSection true true 4 (3/5) 500 8 4 ⟨0, [[-1]]⟩).augment_p = 0
    norm_num [adaSection, adaFire, adaAdjust, npSign, listMean]
  · show ¬ ((adaSection true true 4 (3/5) 500 8 4 ⟨0, [[-1]]⟩).augment_p < 0)
    norm_num [adaSection, adaFire, adaAdjust, npSign, listMean]

/-- C7 as amended: when the controller fires (enabled, pipe present, and the
post-increment batch counter divisible by `ada_interval`), with `m` the mean
of the concatenated sign buffer, `t` the target and step magnitude
`mag = (batch_size * ada_interval) / (ada_kimg * 1000)` (positive for
positive configuration values), starting from `augment_p = p ≥ 0`:
if `m > t` then `augment_p` becomes `p + mag`, a strict increase;
if `m < t` then it becomes `max (p - mag) 0`, a strict decrease whenever
`p > 0` but unchanged at `p = 0`; if `m = t` it is unchanged; and the sign
buffer is cleared by the firing. -/
theorem c7_ada_firing (bs ai : Nat) (kimg t p : ℚ) (b : Nat)
    (signs : List (List ℚ)) (hbs : 0 < bs) (hai : 0 < ai) (hkimg : 0 < kimg)
    (hp : 0 ≤ p) (hfire : b % ai = 0) :
    (t < listMean signs.flatten →
      (adaSection true true ai t kimg bs b ⟨p, signs⟩).augment_p
          = p + ((bs : ℚ) * (ai : ℚ)) / (kimg * 1000)
      ∧ p < (adaSection true true ai t kimg bs b ⟨p, signs⟩).augment_p)
    ∧ (listMean signs.flatten < t →
      (adaSection true true ai t kimg bs b ⟨p, signs⟩).augment_p
          = max (p - ((bs : ℚ) * (ai : ℚ)) / (kimg * 1000)) 0
      ∧ (0 < p → (adaSection true true ai t kimg bs b ⟨p, signs⟩).augment_p < p)
      ∧ (p = 0 → (adaSection true true ai t kimg bs b ⟨p, signs⟩).augment_p = 0))
    ∧ (listMean signs.flatten = t →
      (adaSection true true ai t kimg bs b ⟨p, signs⟩).augment_p = p)
    ∧ (adaSection true true ai t kimg bs b ⟨p, signs⟩).signs = [] := by
  have hcond : (true && true && (b % ai == 0)) = true := by
    simp [hfire]
  have hsec : adaSection true true ai t kimg bs b ⟨p, signs⟩ =
      { augment_p := adaFire bs ai kimg t p (listMean signs.flatten)
      , signs := [] } := by
    unfold adaSection
    rw [hcond]
    rfl
  have hmag : 0 < ((bs : ℚ) * (ai : ℚ)) / (kimg * 1000) := by
    apply div_pos
    · exact mul_pos (by exact_mod_cast hbs) (by exact_mod_cast hai)
    · positivity
  rw [hsec]
  refine ⟨?_, ?_, ?_, rfl⟩
  · intro hm
    have hsgn : npSign (listMean signs.flatten - t) = 1 := by
      unfold npSign
      rw [if_pos (by linarith)]
    have hval : adaFire bs ai kimg t p (listMean signs.flatten)
        = p + ((bs : ℚ) * (ai : ℚ)) / (kimg * 1000) := by
      unfold adaFire adaAdjust
      rw [hsgn]
      rw [max_eq_left (by rw [one_mul] at *; nlinarith)]
      ring
    refine ⟨hval, ?_⟩
    rw [hval]
    linarith
  · intro hm
    have hsgn : npSign (listMean signs.flatten - t) = -1 := by
      unfold npSign
      rw [if_neg (by linarith), if_pos (by linarith)]
    have hval : adaFire bs ai kimg t p (listMean signs.flatten)
        = max (p - ((bs : ℚ) * (ai : ℚ)) / (kimg * 1000)) 0 := by
      unfold adaFire adaAdjust
      rw [hsgn]
      congr 1
      ring
    refine ⟨hval, ?_, ?_⟩
    · intro hppos
      rw [hval]
      exact max_lt (by linarith) hppos
    · intro hp0
      rw [hval, hp0]
      exact max_eq_right (by linarith)
  · intro hm
    have hsgn : npSign (listMean signs.flatten - t) = 0 := by
      unfold npSign
      rw [if_neg (by linarith), if_neg (by linarith)]
    unfold adaFire adaAdjust
    rw [hsgn]
    simp only [zero_mul, zero_div, add_zero]
    exact max_eq_left hp

/-- Witness for the amended C7 at a concrete fired configuration: buffer
mean 1 is above the target 3/5, so the strength strictly increases from 1 by
the step magnitude. -/
theorem c7_ada_firing_witness :
    (3/5 : ℚ) < listMean ([[1]] : List (List ℚ)).flatten
    ∧ (adaSection true true 4 (3/5) 500 8 8 ⟨1, [[1]]⟩).augment_p
        = 1 + ((8 : ℚ) * (4 : ℚ)) / (500 * 1000)
    ∧ 1 < (adaSection true true 4 (3/5) 500 8 8 ⟨1, [[1]]⟩).augment_p
    ∧ (adaSection true true 4 (3/5) 500 8 8 ⟨1, [[1]]⟩).signs = [] := by
  have hm : (3/5 : ℚ) < listMean ([[1]] : List (List ℚ)).flatten := by
    norm_num [listMean]
  have h := c7_ada_firing 8 4 500 (3/5) 1 8 [[1]]
    (by norm_num) (by norm_num) (by norm_num) (by norm_num) (by norm_num)
  exact ⟨hm, (h.1 hm).1, (h.1 hm).2, h.2.2.2⟩

end Mmgan

namespace Mmgan

/-- Momentum coefficients of one optimizer, each a (possibly fractional)
power of the configured base coefficient. -/
structure OptBetas where
  beta1 : PowE
  beta2 : PowE
deriving DecidableEq, Repr

/-- What the StyleGANv2ADA branch of `Trainer.before_train` (trainer.py lines
144-177) produces before constructing the two optimizers: the learning rates
`base_lr_G` / `base_lr_D` and the beta coefficients written back into
`optimizer_cfg`. -/
structure HyperOut where
  base_lr_G : ℚ
  base_lr_D : ℚ
  gen_betas : OptBetas
  disc_betas : OptBetas
deriving DecidableEq, Repr

/-- Lines 159-162: `mb_ratio = reg_interval / (reg_interval + 1)`,
`new_lr = learning_rate * mb_ratio`, `new_beta1 = beta1 ** mb_ratio`,
`new_beta2 = beta2 ** mb_ratio`. -/
def lazyVals (learning_rate beta1 beta2 : ℚ) (reg_interval : Nat) : ℚ × PowE × PowE :=
  (learning_rate * ((reg_interval : ℚ) / ((reg_interval : ℚ) + 1)),
   ⟨beta1, (reg_interval : ℚ) / ((reg_interval : ℚ) + 1)⟩,
   ⟨beta2, (reg_interval : ℚ) / ((reg_interval : ℚ) + 1)⟩)

/-- Trainer.before_train, StyleGANv2ADA branch, lines 145-170:
`learning_rate = basic_lr_per_img * batch_size`; then the loop
`for name, reg_interval in [('G', G_reg_interval), ('D', D_reg_interval)]`.
The `reg_interval is None` arm is only `pass` (its body is commented out,
lines 154-157), yet lines 163-170 unconditionally read `new_lr`,
`new_beta1`, `new_beta2`: if the G interval is `None` these Python locals
are unbound and the assignment raises `NameError`; if only the D interval is
`None`, the D role silently reuses the values left over from the G
iteration.  `beta1` and `beta2` are read once before the loop (lines
146-147), so both roles scale the original coefficients. -/
def trainerHyper (basic_lr_per_img : ℚ) (batch_size : Nat) (beta1 beta2 : ℚ)
    (G_reg_interval D_reg_interval : Option Nat) : Except String HyperOut :=
  let learning_rate := basic_lr_per_img * (batch_size : ℚ)
  match G_reg_interval with
  | none => .error "NameError: name new_lr is not defined"
  | some gk =>
      let gv := lazyVals learning_rate beta1 beta2 gk
      let dv := match D_reg_interval with
        | none => gv
        | some dk => lazyVals learning_rate beta1 beta2 dk
      .ok { base_lr_G := gv.1
          , base_lr_D := dv.1
          , gen_betas := ⟨gv.2.1, gv.2.2⟩
          , disc_betas := ⟨dv.2.1, dv.2.2⟩ }

/-- C4, evaluated on the code.  Second conjunct: whenever both intervals are
integers, each role's optimizer hyper-parameters are pre-scaled exactly as
claimed, `lr' = (basic_lr_per_img * batch_size) * k/(k+1)` and
`beta' = beta ** (k/(k+1))` for both coefficients.  First conjunct, the
failing input: with `G_reg_interval = None` and `D_reg_interval = 16` the
role D has a positive interval but `before_train` raises `NameError` before
constructing any optimizer, because the `None` arm of the loop is only
`pass` while the assignment lines unconditionally read `new_lr`; so the
claim fails for role D in that configuration. -/
theorem c4_lazy_prescale (basic_lr_per_img : ℚ) (batch_size : Nat) (b1 b2 : ℚ) :
    trainerHyper basic_lr_per_img batch_size b1 b2 none (some 16)
        = .error "NameError: name new_lr is not defined"
    ∧ ∀ gk dk : Nat,
        trainerHyper basic_lr_per_img batch_size b1 b2 (some gk) (some dk)
          = .ok { base_lr_G := (basic_lr_per_img * (batch_size : ℚ)) * ((gk : ℚ) / ((gk : ℚ) + 1))
                , base_lr_D := (basic_lr_per_img * (batch_size : ℚ)) * ((dk : ℚ) / ((dk : ℚ) + 1))
                , gen_betas := ⟨⟨b1, (gk : ℚ) / ((gk : ℚ) + 1)⟩, ⟨b2, (gk : ℚ) / ((gk : ℚ) + 1)⟩⟩
                , disc_betas := ⟨⟨b1, (dk : ℚ) / ((dk : ℚ) + 1)⟩, ⟨b2, (dk : ℚ) / ((dk : ℚ) + 1)⟩⟩ } := by
  constructor
  · rfl
  · intro gk dk
    rfl

end Mmgan

namespace Mmgan

/-- The contents of a numpy npz archive: a partial map from key to a flat
array of numbers. -/
abbrev Npz := String → Option (List ℚ)

/-- Zero-padding to a given width, the behaviour of the Python format
specifiers `%.5d` and `%.2d` on non-negative integers. -/
def padZeros (width n : Nat) : String :=
  let s := toString n
  String.mk (List.replicate (width - s.length) '0') ++ s

/-- Line 337: `npz_path = 'batch%.5d_rank%.2d.npz' % (self.batch_idx, rank)`
(the non-debugger path; under a debugger line 340 prepends a parent-directory
segment). -/
def npzName (batch_idx rank : Nat) : String :=
  "batch" ++ padZeros 5 batch_idx ++ "_rank" ++ padZeros 2 rank ++ ".npz"

/-- The npz keys `accumulate_gradients` reads from `dic2` when `align_grad`
is set, per phase name (lines 182-186, 190, 215-218, 227-229, 250-253, 257,
278-279, 287-288, 298-299, 302-303), gated by the same flags as the loss
terms. -/
def alignKeysFor (phase : String) (pl_weight r1_gamma : ℚ) : List String :=
  let do_Gmain := phase == "Gmain" || phase == "Gboth"
  let do_Dmain := phase == "Dmain" || phase == "Dboth"
  let do_Gpl := (phase == "Greg" || phase == "Gboth") && decide (pl_weight ≠ 0)
  let do_Dr1 := (phase == "Dreg" || phase == "Dboth") && decide (r1_gamma ≠ 0)
  (if do_Gmain then [phase ++ "gen_img", phase ++ "_gen_ws", phase ++ "gen_logits"] else [])
    ++ (if do_Gpl then [phase ++ "gen_img", phase ++ "gen_ws", phase ++ "pl_grads", phase ++ "pl_lengths"] else [])
    ++ (if do_Dmain then [phase ++ "gen_img", phase ++ "_gen_ws", phase ++ "gen_logits"] else [])
    ++ (if do_Dmain || do_Dr1 then [phase ++ "real_logits"] else [])
    ++ (if do_Dmain then [phase ++ "loss_Dreal"] else [])
    ++ (if do_Dr1 then [phase ++ "r1_grads", phase ++ "r1_penalty"] else [])

/-- Whether the loaded archive has every key the executed phases will read. -/
def alignKeysOk (dic : Npz) (steps : List PhaseStep) (pl_weight r1_gamma : ℚ) : Bool :=
  steps.all (fun st =>
    (alignKeysFor st.phase.name pl_weight r1_gamma).all (fun k => (dic k).isSome))

/-- The align-grad prologue of `train_iter` (lines 334-343) together with the
per-phase `dic2` accesses of `accumulate_gradients`, as the determination of
which real-image batch the iteration actually trains on: `np.load` of the
file named by the current batch index and rank raises when the file is
absent; the incoming batch `input_real_img` is then replaced by the
archive's `phase_real_img` entry (raising when that key is absent); and the
iteration raises when any executed phase's align key is missing from the
archive.  The returned list is the real-image batch used. -/
def trainIterAlign (fs : String → Option Npz) (batch_idx rank : Nat)
    (phases : List Phase) (pl_weight r1_gamma : ℚ)
    (input_real_img : List ℚ) : Except String (List ℚ) :=
  match fs (npzName batch_idx rank) with
  | none => .error ("FileNotFoundError: " ++ npzName batch_idx rank)
  | some dic =>
      match dic "phase_real_img" with
      | none => .error "KeyError: phase_real_img"
      | some v =>
          if alignKeysOk dic (runPhases batch_idx phases) pl_weight r1_gamma
          then .ok v
          else .error "KeyError: missing align key in accumulate_gradients"

/-- C10: the constructor unconditionally leaves `align_grad = True`, so every
`train_iter` call attempts to load `batch%05d_rank%02d.npz` keyed by the
current batch index and rank; when the file is present with its keys, the
incoming real-image batch is replaced by the archive's `phase_real_img`
contents (the result is the archive entry, independent of the input batch);
when the file is absent, or the `phase_real_img` key is absent, or any
per-phase key read by `accumulate_gradients` is absent, the iteration raises
instead of completing. -/
theorem c10_align_grad_path (g d : Option Nat) (smp ap kim : ℚ) (ai : Nat)
    (adj : Bool) (fs : String → Option Npz) (b rank : Nat)
    (phases : List Phase) (pl r1 : ℚ) (img : List ℚ) (dic : Npz) (v : List ℚ) :
    (initModel g d smp ap kim ai adj).align_grad = true
    ∧ (fs (npzName b rank) = none →
        trainIterAlign fs b rank phases pl r1 img
          = .error ("FileNotFoundError: " ++ npzName b rank))
    ∧ (fs (npzName b rank) = some dic → dic "phase_real_img" = none →
        trainIterAlign fs b rank phases pl r1 img = .error "KeyError: phase_real_img")
    ∧ (fs (npzName b rank) = some dic → dic "phase_real_img" = some v →
        alignKeysOk dic (runPhases b phases) pl r1 = true →
        trainIterAlign fs b rank phases pl r1 img = .ok v)
    ∧ (fs (npzName b rank) = some dic → dic "phase_real_img" = some v →
        alignKeysOk dic (runPhases b phases) pl r1 = false →
        trainIterAlign fs b rank phases pl r1 img
          = .error "KeyError: missing align key in accumulate_gradients") := by
  refine ⟨rfl, ?_, ?_, ?_, ?_⟩
  · intro hfs
    simp only [trainIterAlign, hfs]
  · intro hfs hkey
    simp only [trainIterAlign, hfs, hkey]
  · intro hfs hkey hok
    simp only [trainIterAlign, hfs, hkey, hok, if_true]
  · intro hfs hkey hbad
    simp [trainIterAlign, hfs, hkey, hbad]

/-- Witness for C10: the constructor flag; a concrete empty file system makes
the iteration fail with the zero-padded file name; and a concrete archive
holding `phase_real_img = [1]` and every key of the four executed phases
(with `pl_weight = r1_gamma = 0`) makes the iteration train on `[1]`,
discarding the incoming batch `[7]`. -/
theorem c10_align_grad_path_witness :
    (initModel (some 4) (some 16) (9/10) 0 500 4 false).align_grad = true
    ∧ trainIterAlign (fun _ => none) 0 0 (buildPhases (some 4) (some 16)) 0 0 [7]
        = .error ("FileNotFoundError: " ++ npzName 0 0)
    ∧ trainIterAlign
        (fun s => if s = npzName 0 0
          then some (fun k =>
            if k ∈ ["phase_real_img", "Gmaingen_img", "Gmain_gen_ws", "Gmaingen_logits",
                    "Dmaingen_img", "Dmain_gen_ws", "Dmaingen_logits",
                    "Dmainreal_logits", "Dmainloss_Dreal"]
            then some [1] else none)
          else none)
        0 0 (buildPhases (some 4) (some 16)) 0 0 [7] = .ok [1] :=
  ⟨(c10_align_grad_path (some 4) (some 16) (9/10) 0 500 4 false
      (fun _ => none) 0 0 (buildPhases (some 4) (some 16)) 0 0 [7]
      (fun _ => none) []).1,
   (c10_align_grad_path (some 4) (some 16) (9/10) 0 500 4 false
      (fun _ => none) 0 0 (buildPhases (some 4) (some 16)) 0 0 [7]
      (fun _ => none) []).2.1 rfl,
   (c10_align_grad_path (some 4) (some 16) (9/10) 0 500 4 false
      (fun s => if s = npzName 0 0
        then some (fun k =>
          if k ∈ ["phase_real_img", "Gmaingen_img", "Gmain_gen_ws", "Gmaingen_logits",
                  "Dmaingen_img", "Dmain_gen_ws", "Dmaingen_logits",
                  "Dmainreal_logits", "Dmainloss_Dreal"]
          then some [1] else none)
        else none)
      0 0 (buildPhases (some 4) (some 16)) 0 0 [7]
      (fun k =>
        if k ∈ ["phase_real_img", "Gmaingen_img", "Gmain_gen_ws", "Gmaingen_logits",
                "Dmaingen_img", "Dmain_gen_ws", "Dmaingen_logits",
                "Dmainreal_logits", "Dmainloss_Dreal"]
        then some [1] else none)
      [1]).2.2.2.1 rfl rfl rfl⟩

end Mmgan
